import Mathlib

/-!
Shallow embedding of `accuracy_check.py` (invoice validation engine).

Cell values delivered by the extraction layer are loosely typed: strings,
numbers, or the tabular library's NaN/absent marker.  Numbers are modelled as
rationals.  The three dataframes become three lists of records with the fixed
field schemas of the source.  Each Python helper (`standardize_nulls`,
`check_missing_values`, `check_data_types`, `check_relations`,
`validate_invoice_data`) is translated into a Lean function of the same name;
the loop-carried local variable `total_tax` of the summary loop is made an
explicit `Option ℚ` state (with `none` standing for "never assigned", whose
dereference is Python's NameError, modelled as an uncaught exception).
-/

/-- A raw cell value: a string, a number, or the NaN marker (`np.nan`,
also what Python `None` becomes inside a dataframe). -/
inductive Val where
  | vstr (s : String)
  | vnum (q : ℚ)
  | vnan
deriving DecidableEq, Repr

/-- `pd.isna` on a cell. -/
def isna : Val → Bool
  | .vnan => true
  | _ => false

/-- The literal replacement list of `standardize_nulls`:
`df.replace(['', 'nan', 'null', 'none', 'None'], np.nan)`. -/
def nullTokens : List String := ["", "nan", "null", "none", "None"]

/-- Per-cell action of `standardize_nulls`: `df.replace` substitutes `np.nan`
for a cell exactly equal to one of the listed strings and leaves every other
cell unchanged. -/
def standardizeVal (v : Val) : Val :=
  match v with
  | .vstr s => if s ∈ nullTokens then .vnan else v
  | _ => v

/-- Row of `invoice_df` (header), fields in column order. -/
structure InvoiceRow where
  invoice_number : Val
  invoice_date : Val
  place_of_supply : Val
  place_of_origin : Val
  receiver_name : Val
  gstin_supplier : Val
  taxable_value : Val
  invoice_value : Val
  tax_amount : Val
deriving DecidableEq, Repr

/-- Row of `line_items_df`. -/
structure LineItemRow where
  quantity : Val
  rate_per_item_after_discount : Val
  taxable_value : Val
  sgst_amount : Val
  cgst_amount : Val
  igst_amount : Val
  sgst_rate : Val
  cgst_rate : Val
  igst_rate : Val
  tax_amount : Val
  tax_rate : Val
  final_amount : Val
deriving DecidableEq, Repr

/-- Row of `total_summary_df`. -/
structure SummaryRow where
  total_taxable_value : Val
  total_invoice_value : Val
  total_tax_amount : Val
  total_cgst_amount : Val
  total_sgst_amount : Val
  total_igst_amount : Val
  rounding_adjustment : Val
deriving DecidableEq, Repr

/-- `standardize_nulls` applied to a header row. -/
def standardizeInvoiceRow (r : InvoiceRow) : InvoiceRow :=
  ⟨standardizeVal r.invoice_number, standardizeVal r.invoice_date,
   standardizeVal r.place_of_supply, standardizeVal r.place_of_origin,
   standardizeVal r.receiver_name, standardizeVal r.gstin_supplier,
   standardizeVal r.taxable_value, standardizeVal r.invoice_value,
   standardizeVal r.tax_amount⟩

/-- `standardize_nulls` applied to a line-item row. -/
def standardizeLineItemRow (r : LineItemRow) : LineItemRow :=
  ⟨standardizeVal r.quantity, standardizeVal r.rate_per_item_after_discount,
   standardizeVal r.taxable_value, standardizeVal r.sgst_amount,
   standardizeVal r.cgst_amount, standardizeVal r.igst_amount,
   standardizeVal r.sgst_rate, standardizeVal r.cgst_rate,
   standardizeVal r.igst_rate, standardizeVal r.tax_amount,
   standardizeVal r.tax_rate, standardizeVal r.final_amount⟩

/-- `standardize_nulls` applied to a summary row. -/
def standardizeSummaryRow (r : SummaryRow) : SummaryRow :=
  ⟨standardizeVal r.total_taxable_value, standardizeVal r.total_invoice_value,
   standardizeVal r.total_tax_amount, standardizeVal r.total_cgst_amount,
   standardizeVal r.total_sgst_amount, standardizeVal r.total_igst_amount,
   standardizeVal r.rounding_adjustment⟩

/-- Presence predicate for a header row (`invoice_condition`, lines 37-46). -/
def invoiceRowOk (r : InvoiceRow) : Bool :=
  !isna r.invoice_number && !isna r.invoice_date &&
  !isna r.place_of_supply && !isna r.place_of_origin &&
  !isna r.receiver_name && !isna r.gstin_supplier &&
  (!isna r.taxable_value || !isna r.invoice_value) &&
  !isna r.tax_amount

/-- Presence predicate for a line-item row (`line_items_condition`,
lines 57-67). -/
def lineItemRowOk (r : LineItemRow) : Bool :=
  (!isna r.tax_amount || !isna r.tax_rate ||
   (!isna r.sgst_amount && !isna r.cgst_amount) || !isna r.igst_amount ||
   (!isna r.sgst_rate && !isna r.cgst_rate) || !isna r.igst_rate) &&
  (!isna r.final_amount || !isna r.taxable_value ||
   (!isna r.rate_per_item_after_discount && !isna r.quantity))

/-- Presence predicate for a summary row (`summary_condition`, lines 74-81). -/
def summaryRowOk (r : SummaryRow) : Bool :=
  (!isna r.total_taxable_value || !isna r.total_invoice_value) &&
  (!isna r.total_tax_amount || !isna r.total_igst_amount ||
   (!isna r.total_cgst_amount && !isna r.total_sgst_amount))

/-- First row (index and value) violating predicate `p`:
`condition[~condition].index[0]` on a default range index. -/
def firstFailIdx {α : Type} (p : α → Bool) : List α → Option (ℕ × α)
  | [] => none
  | x :: xs =>
    if p x then (firstFailIdx p xs).map (fun ir => (ir.1 + 1, ir.2))
    else some (0, x)

/-- Fields of a header row with their column names, in column order. -/
def invoiceFields (r : InvoiceRow) : List (String × Val) :=
  [("invoice_number", r.invoice_number), ("invoice_date", r.invoice_date),
   ("place_of_supply", r.place_of_supply), ("place_of_origin", r.place_of_origin),
   ("receiver_name", r.receiver_name), ("gstin_supplier", r.gstin_supplier),
   ("taxable_value", r.taxable_value), ("invoice_value", r.invoice_value),
   ("tax_amount", r.tax_amount)]

/-- `missing_cols` at a failing header row: every column whose cell is NaN
at that row, in column order (lines 49-53). -/
def invoiceMissingCols (r : InvoiceRow) : List String :=
  (invoiceFields r).filterMap (fun p => if isna p.2 then some p.1 else none)

/-- Outcome of Step 1 when it fails. -/
inductive Step1Err where
  | invoiceMissing (idx : ℕ) (cols : List String)
  | lineItemsMissing (idx : ℕ)
  | summaryMissing (idx : ℕ)
deriving DecidableEq, Repr

/-- Step 1 (`check_missing_values`): header, then line items, then summary;
first violating row aborts. `none` means the step passed. -/
def check_missing_values (inv : List InvoiceRow) (li : List LineItemRow)
    (ts : List SummaryRow) : Option Step1Err :=
  match firstFailIdx invoiceRowOk inv with
  | some ir => some (.invoiceMissing ir.1 (invoiceMissingCols ir.2))
  | none =>
    match firstFailIdx lineItemRowOk li with
    | some ir => some (.lineItemsMissing ir.1)
    | none =>
      match firstFailIdx summaryRowOk ts with
      | some ir => some (.summaryMissing ir.1)
      | none => none

/-- The failure message of Step 1 (the f-strings of lines 54, 71, 85). -/
def step1Msg : Step1Err → String
  | .invoiceMissing idx cols =>
      "Missing required values in invoice_df: " ++ String.intercalate ", " cols ++
      " at row " ++ toString idx
  | .lineItemsMissing idx =>
      "Missing required values in line_items_df at row " ++ toString idx
  | .summaryMissing idx =>
      "Missing required values in total_summary_df at row " ++ toString idx

/-- Value of a decimal digit character. -/
def natOfDigits (cs : List Char) : ℕ :=
  cs.foldl (fun a c => a * 10 + (c.toNat - 48)) 0

/-- Parse a non-empty all-digit string as a natural number. -/
def parseNatStr (s : String) : Option ℕ :=
  let cs := s.toList
  if cs.isEmpty then none
  else if cs.all Char.isDigit then some (natOfDigits cs) else none

/-- Model of `pd.to_numeric` on one string: an optionally signed decimal
literal (integer part, optional fraction).  Exponent forms, spacing and other
exotic numeric spellings accepted by pandas are out of scope of the claims. -/
def parseDecimal (s : String) : Option ℚ :=
  let sign : ℚ := if s.startsWith "-" then -1 else 1
  let body := if s.startsWith "-" || s.startsWith "+" then s.drop 1 else s
  match body.splitOn "." with
  | [ip] => (parseNatStr ip).map (fun n => sign * (n : ℚ))
  | [ip, fp] =>
    if ip.isEmpty && fp.isEmpty then none
    else
      let ipv := if ip.isEmpty then some 0 else parseNatStr ip
      let fpv := if fp.isEmpty then some 0 else parseNatStr fp
      match ipv, fpv with
      | some i, some f =>
          some (sign * ((i : ℚ) + (f : ℚ) / ((10 : ℚ) ^ fp.length)))
      | _, _ => none
  | _ => none

/-- `pd.to_numeric(..., errors='coerce')` on one cell (Step 3, lines 137-141):
numbers pass through, parseable strings are parsed, everything else is NaN. -/
def toNum : Val → Option ℚ
  | .vnum q => some q
  | .vstr s => parseDecimal s
  | .vnan => none

/-- One cell survives the Step 2 numeric coercion `pd.to_numeric(col.dropna())`:
NaN cells are dropped, numbers pass, strings must parse.  (The source skips a
column that is entirely NaN; per-cell checking is equivalent since the check
then holds vacuously.) -/
def cellNumericOk : Val → Bool
  | .vnan => true
  | .vnum _ => true
  | .vstr s => (parseDecimal s).isSome

/-- Month abbreviations of the `%b` directive. -/
def monthAbbrevs : List String :=
  ["Jan", "Feb", "Mar", "Apr", "May", "Jun",
   "Jul", "Aug", "Sep", "Oct", "Nov", "Dec"]

/-- Model of `pd.to_datetime(s, format='%d-%b-%y')` on one string:
day, abbreviated month name (case-insensitive, as in strptime), 2-digit
year. -/
def parseDate (s : String) : Option (ℕ × ℕ × ℕ) :=
  match s.splitOn "-" with
  | [d, m, y] =>
    match parseNatStr d, parseNatStr y with
    | some dv, some yv =>
      match monthAbbrevs.findIdx? (fun a => a.toLower == m.toLower) with
      | some mi =>
        if 1 ≤ dv && dv ≤ 31 && y.length == 2 then some (dv, mi + 1, yv)
        else none
      | none => none
    | _, _ => none
  | _ => none

/-- One `invoice_date` cell survives `pd.to_datetime(col, format='%d-%b-%y')`:
NaN becomes NaT (allowed), a string must match the format, a number raises. -/
def cellDateOk : Val → Bool
  | .vnan => true
  | .vstr s => (parseDate s).isSome
  | .vnum _ => false

/-- Step 2 (`check_data_types`, lines 90-122): the date column of the header
and the listed numeric columns of all three frames must coerce; any failure
aborts the step. -/
def check_data_types (inv : List InvoiceRow) (li : List LineItemRow)
    (ts : List SummaryRow) : Bool :=
  inv.all (fun r => cellDateOk r.invoice_date) &&
  inv.all (fun r =>
    cellNumericOk r.place_of_supply && cellNumericOk r.place_of_origin &&
    cellNumericOk r.taxable_value && cellNumericOk r.invoice_value &&
    cellNumericOk r.tax_amount) &&
  li.all (fun r =>
    cellNumericOk r.quantity && cellNumericOk r.rate_per_item_after_discount &&
    cellNumericOk r.taxable_value && cellNumericOk r.sgst_amount &&
    cellNumericOk r.cgst_amount && cellNumericOk r.igst_amount &&
    cellNumericOk r.sgst_rate && cellNumericOk r.cgst_rate &&
    cellNumericOk r.igst_rate && cellNumericOk r.tax_amount &&
    cellNumericOk r.tax_rate && cellNumericOk r.final_amount) &&
  ts.all (fun r =>
    cellNumericOk r.total_taxable_value && cellNumericOk r.total_cgst_amount &&
    cellNumericOk r.total_sgst_amount && cellNumericOk r.total_igst_amount &&
    cellNumericOk r.total_tax_amount && cellNumericOk r.total_invoice_value &&
    cellNumericOk r.rounding_adjustment)

/-- The relative tolerance passed to `np.isclose`. -/
def rtol : ℚ := 1 / 100000

/-- The absolute tolerance `np.isclose` uses by default (the source passes
only `rtol=1e-05`, so numpy's default `atol=1e-08` applies). -/
def atol : ℚ := 1 / 100000000

/-- `np.isclose(a, b, rtol=1e-05)`: numpy evaluates
`|a - b| <= atol + rtol * |b|` with the default `atol = 1e-08`. -/
def isclose (a b : ℚ) : Bool :=
  decide (|a - b| ≤ atol + rtol * |b|)

/-- The comparator the spec describes: purely relative,
`|a - b| ≤ 1e-5 * max(|a|, |b|)` with zero absolute tolerance.
Modelled from the spec for comparison against `isclose`. -/
def specClose (a b : ℚ) : Bool :=
  decide (|a - b| ≤ rtol * max |a| |b|)

/-- The numeric view of a header row after the Step 3 coercion of its three
relation columns (lines 127-141). -/
structure InvoiceRowN where
  taxable_value : Option ℚ
  invoice_value : Option ℚ
  tax_amount : Option ℚ
deriving DecidableEq, Repr

/-- The numeric view of a line-item row after the Step 3 coercion. -/
structure LineItemRowN where
  rate_per_item_after_discount : Option ℚ
  quantity : Option ℚ
  taxable_value : Option ℚ
  sgst_amount : Option ℚ
  cgst_amount : Option ℚ
  igst_amount : Option ℚ
  sgst_rate : Option ℚ
  cgst_rate : Option ℚ
  igst_rate : Option ℚ
  tax_amount : Option ℚ
  tax_rate : Option ℚ
  final_amount : Option ℚ
deriving DecidableEq, Repr

/-- The numeric view of a summary row after the Step 3 coercion. -/
structure SummaryRowN where
  total_taxable_value : Option ℚ
  total_invoice_value : Option ℚ
  total_tax_amount : Option ℚ
  total_cgst_amount : Option ℚ
  total_sgst_amount : Option ℚ
  total_igst_amount : Option ℚ
  rounding_adjustment : Option ℚ
deriving DecidableEq, Repr

/-- Step 3 coercion of a header row. -/
def coerceInvoiceRow (r : InvoiceRow) : InvoiceRowN :=
  ⟨toNum r.taxable_value, toNum r.invoice_value, toNum r.tax_amount⟩

/-- Step 3 coercion of a line-item row. -/
def coerceLineItemRow (r : LineItemRow) : LineItemRowN :=
  ⟨toNum r.rate_per_item_after_discount, toNum r.quantity, toNum r.taxable_value,
   toNum r.sgst_amount, toNum r.cgst_amount, toNum r.igst_amount,
   toNum r.sgst_rate, toNum r.cgst_rate, toNum r.igst_rate,
   toNum r.tax_amount, toNum r.tax_rate, toNum r.final_amount⟩

/-- Step 3 coercion of a summary row. -/
def coerceSummaryRow (r : SummaryRow) : SummaryRowN :=
  ⟨toNum r.total_taxable_value, toNum r.total_invoice_value,
   toNum r.total_tax_amount, toNum r.total_cgst_amount,
   toNum r.total_sgst_amount, toNum r.total_igst_amount,
   toNum r.rounding_adjustment⟩

/-- The failure (or uncaught-exception) outcomes of `check_relations`. -/
inductive RelErr where
  | invoiceMismatch (idx : ℕ) (iv tv ta : ℚ)
  | taxMismatch (idx : ℕ)
  | finalMismatch (idx : ℕ) (fa bv t0 : ℚ)
  | summaryMismatch (idx : ℕ) (tiv ttv tt : ℚ)
  | summaryUnbound (idx : ℕ)
deriving DecidableEq, Repr

/-- `for idx, row in df.iterrows()` with an early `return` on the first row
whose body yields an error. -/
def firstErr {α : Type} (f : ℕ → α → Option RelErr) : ℕ → List α → Option RelErr
  | _, [] => none
  | idx, x :: xs =>
    match f idx x with
    | some e => some e
    | none => firstErr f (idx + 1) xs

/-- Body of the header relation loop (lines 144-147): abort when all of
`invoice_value`, `taxable_value`, `tax_amount` are present and
`invoice_value` is not close to their sum. -/
def invoiceRowCheck (idx : ℕ) (r : InvoiceRowN) : Option RelErr :=
  match r.invoice_value, r.taxable_value, r.tax_amount with
  | some iv, some tv, some ta =>
    if isclose iv (tv + ta) then none
    else some (.invoiceMismatch idx iv tv ta)
  | _, _, _ => none

/-- Header relation loop: first violating row aborts. -/
def checkInvoiceRelations (idx : ℕ) (inv : List InvoiceRowN) : Option RelErr :=
  firstErr invoiceRowCheck idx inv

/-- `base_value` of a line-item row (lines 152-157): `taxable_value` if
present, else `rate_per_item_after_discount * quantity` if both present,
else undetermined (the row's checks are skipped). -/
def baseValue (r : LineItemRowN) : Option ℚ :=
  match r.taxable_value with
  | some tv => some tv
  | none =>
    match r.rate_per_item_after_discount, r.quantity with
    | some rp, some q => some (rp * q)
    | _, _ => none

/-- `tax_vars` of a line-item row (lines 160-179), in the order the source
appends them: the three individual amounts (only if all three are present),
the individual rates applied to the base (only if all three are present),
`tax_amount` (if present), `tax_rate` applied to the base (if present). -/
def taxVars (r : LineItemRowN) (bv : ℚ) : List ℚ :=
  (match r.sgst_amount, r.cgst_amount, r.igst_amount with
   | some sa, some ca, some ia => [sa + ca + ia]
   | _, _, _ => []) ++
  (match r.sgst_rate, r.cgst_rate, r.igst_rate with
   | some sr, some cr, some ir => [bv * (sr + cr + ir) / 100]
   | _, _, _ => []) ++
  (match r.tax_amount with
   | some t => [t]
   | none => []) ++
  (match r.tax_rate with
   | some tr => [bv * tr / 100]
   | none => [])

/-- The successive-pair loop of lines 183-184: `true` when every adjacent
pair of the list is close (vacuously for lists shorter than 2). -/
def successiveClose : List ℚ → Bool
  | a :: b :: rest => isclose a b && successiveClose (b :: rest)
  | _ => true

/-- One line-item row of the relation loop (lines 150-192): skip when no
base value; abort with a tax mismatch when at least two estimates exist and
some successive pair disagrees; otherwise check `final_amount` against
`base_value` plus the first estimate when both exist. -/
def lineRowCheck (idx : ℕ) (r : LineItemRowN) : Option RelErr :=
  match baseValue r with
  | none => none
  | some bv =>
    let tv := taxVars r bv
    if 2 ≤ tv.length && !successiveClose tv then some (.taxMismatch idx)
    else
      match r.final_amount, tv.head? with
      | some fa, some t0 =>
        if isclose fa (bv + t0) then none
        else some (.finalMismatch idx fa bv t0)
      | _, _ => none

/-- Line-item relation loop: first row whose check aborts wins. -/
def checkLineRelations (idx : ℕ) (li : List LineItemRowN) : Option RelErr :=
  firstErr lineRowCheck idx li

/-- Resolution of the loop-carried Python local `total_tax` at one summary
row (lines 197-201): `total_tax_amount` if present, else the cgst/sgst/igst
sum if the triple is complete, else the variable keeps whatever value it had
from earlier iterations (`none` = still never assigned). -/
def summaryStep (st : Option ℚ) (r : SummaryRowN) : Option ℚ :=
  match r.total_tax_amount with
  | some t => some t
  | none =>
    match r.total_cgst_amount, r.total_sgst_amount, r.total_igst_amount with
    | some c, some s, some i => some (c + s + i)
    | _, _, _ => st

/-- Summary relation loop (lines 195-206) with the `total_tax` state made
explicit.  When both totals are present the source dereferences `total_tax`:
if it was never assigned this raises NameError (`summaryUnbound`), otherwise
the closeness check runs against the possibly stale value. -/
def checkSummaryRelations : ℕ → Option ℚ → List SummaryRowN → Option RelErr
  | _, _, [] => none
  | idx, st, r :: rs =>
    let st' := summaryStep st r
    match r.total_taxable_value, r.total_invoice_value with
    | some ttv, some tiv =>
      match st' with
      | none => some (.summaryUnbound idx)
      | some tt =>
        if isclose tiv (ttv + tt) then checkSummaryRelations (idx + 1) st' rs
        else some (.summaryMismatch idx tiv ttv tt)
    | _, _ => checkSummaryRelations (idx + 1) st' rs

/-- Step 3 (`check_relations`): header rows, then line-item rows, then
summary rows; first failure anywhere aborts. -/
def check_relations (inv : List InvoiceRowN) (li : List LineItemRowN)
    (ts : List SummaryRowN) : Option RelErr :=
  match checkInvoiceRelations 0 inv with
  | some e => some e
  | none =>
    match checkLineRelations 0 li with
    | some e => some e
    | none => checkSummaryRelations 0 none ts

/-- Rendering of a rational in the failure messages (integers print without
a denominator, mirroring how the concrete values appear in the f-strings). -/
def ratStr (q : ℚ) : String :=
  if q.den = 1 then toString q.num else toString q.num ++ "/" ++ toString q.den

/-- The failure messages of Step 3 (the f-strings of lines 147, 185, 192,
206).  `summaryUnbound` never reaches a message: it raises out of the
engine. -/
def relErrMsg : RelErr → String
  | .invoiceMismatch idx iv tv ta =>
      "Invoice value mismatch at row " ++ toString idx ++ ": " ++ ratStr iv ++
      " != " ++ ratStr tv ++ " + " ++ ratStr ta
  | .taxMismatch idx =>
      "Tax amount mismatch at row " ++ toString idx ++
      ": Different tax calculations yield different results"
  | .finalMismatch idx fa bv t0 =>
      "Final amount mismatch at row " ++ toString idx ++ ": " ++ ratStr fa ++
      " != " ++ ratStr bv ++ " + " ++ ratStr t0
  | .summaryMismatch idx tiv ttv tt =>
      "Total invoice value mismatch at row " ++ toString idx ++ ": " ++
      ratStr tiv ++ " != " ++ ratStr ttv ++ " + " ++ ratStr tt
  | .summaryUnbound idx =>
      "NameError at summary row " ++ toString idx

/-- The engine (`validate_invoice_data`): normalize nulls, then the three
gated steps.  `Except.error` models the uncaught NameError of the summary
loop; every other outcome returns the `(passed, failed_step, details)`
3-tuple. -/
def validate_invoice_data (inv0 : List InvoiceRow) (li0 : List LineItemRow)
    (ts0 : List SummaryRow) : Except String (Bool × String × String) :=
  let inv := inv0.map standardizeInvoiceRow
  let li := li0.map standardizeLineItemRow
  let ts := ts0.map standardizeSummaryRow
  match check_missing_values inv li ts with
  | some e => .ok (false, "Step 1: Missing Values", step1Msg e)
  | none =>
    if check_data_types inv li ts then
      match check_relations (inv.map coerceInvoiceRow)
          (li.map coerceLineItemRow) (ts.map coerceSummaryRow) with
      | none => .ok (true, "All Steps", "Validation successful")
      | some (.summaryUnbound idx) =>
          .error (relErrMsg (.summaryUnbound idx))
      | some e => .ok (false, "Step 3: Relations", relErrMsg e)
    else .ok (false, "Step 2: Data Types", "Data type conversion failed")

/-- Decidable equality for engine verdicts. -/
instance {e a : Type} [DecidableEq e] [DecidableEq a] : DecidableEq (Except e a)
  | .error e1, .error e2 =>
    if h : e1 = e2 then .isTrue (h ▸ rfl)
    else .isFalse (fun hh => h (Except.error.inj hh))
  | .error _, .ok _ => .isFalse (fun hh => Except.noConfusion hh)
  | .ok _, .error _ => .isFalse (fun hh => Except.noConfusion hh)
  | .ok a1, .ok a2 =>
    if h : a1 = a2 then .isTrue (h ▸ rfl)
    else .isFalse (fun hh => h (Except.ok.inj hh))

/-! ### Concrete example data -/

/-- A fully valid header row (invoice_value = taxable_value + tax_amount). -/
def hdrOk : InvoiceRow :=
  ⟨.vstr "INV1", .vstr "05-Jan-24", .vnum 27, .vnum 27, .vstr "Acme",
   .vstr "GSTIN1", .vnum 100, .vnum 118, .vnum 18⟩

/-- A header row whose only NaN cell is `gstin_supplier`. -/
def hdrMissingGstin : InvoiceRow :=
  ⟨.vstr "INV2", .vstr "05-Jan-24", .vnum 27, .vnum 27, .vstr "Acme",
   .vnan, .vnum 100, .vnum 118, .vnum 18⟩

/-- A valid line item: taxable_value 100, tax_amount 18, everything else
absent (a single tax estimate, so no pair to compare). -/
def liOk : LineItemRow :=
  ⟨.vnan, .vnan, .vnum 100, .vnan, .vnan, .vnan, .vnan, .vnan, .vnan,
   .vnum 18, .vnan, .vnan⟩

/-- A summary row that resolves total_tax = 100 and passes its check. -/
def sRowResolved : SummaryRow :=
  ⟨.vnum 1000, .vnum 1100, .vnum 100, .vnan, .vnan, .vnan, .vnan⟩

/-- A summary row with total_tax_amount absent and an incomplete
cgst/sgst/igst triple (only igst present), but both totals present. -/
def sRowStale : SummaryRow :=
  ⟨.vnum 5000, .vnum 5900, .vnan, .vnan, .vnan, .vnum 900, .vnan⟩

/-- Line item whose two tax estimates are 1e-8 and 0 (igst amount 1e-8
against tax_amount 0). -/
def liScaleSmall : LineItemRowN :=
  ⟨none, none, some 100, some 0, some 0, some (1 / 100000000), none, none,
   none, some 0, none, none⟩

/-- `liScaleSmall` with both compared values scaled by 1e8: estimates 1
and 0. -/
def liScaleBig : LineItemRowN :=
  ⟨none, none, some 100, some 0, some 0, some 1, none, none,
   none, some 0, none, none⟩

/-- Line item with two disagreeing tax estimates (tax_amount 18 against
base 100 at tax_rate 10, giving 10). -/
def liTaxDisagree : LineItemRowN :=
  ⟨none, none, some 100, none, none, none, none, none, none, some 18,
   some 10, none⟩

/-- Line item with a base value but zero formable tax estimates
(sgst and cgst amounts present, igst absent, no rates, no tax_amount). -/
def liNoEstimates : LineItemRowN :=
  ⟨none, none, some 100, some 9, some 9, none, none, none, none, none,
   none, none⟩

/-- `liNoEstimates` with an absurd final_amount present. -/
def liFinalNoEst : LineItemRowN :=
  ⟨none, none, some 100, some 9, some 9, none, none, none, none, none,
   none, some 424242⟩

/-! ### Shared characterization lemmas -/

theorem firstFailIdx_none_iff {α : Type} (p : α → Bool) (l : List α) :
    firstFailIdx p l = none ↔ ∀ x ∈ l, p x = true := by
  induction l with
  | nil => simp [firstFailIdx]
  | cons a tl ih =>
    rw [firstFailIdx]
    by_cases h : p a = true
    · rw [if_pos h, List.forall_mem_cons]
      cases htl : firstFailIdx p tl with
      | some ir => simp [htl, h, ← ih]
      | none => simp [htl, h, ← ih]
    · rw [if_neg h]
      simp only [Bool.not_eq_true] at h
      simp [List.forall_mem_cons, h]

theorem firstFailIdx_some_iff {α : Type} (p : α → Bool) :
    ∀ (l : List α) (i : ℕ) (r : α),
    firstFailIdx p l = some (i, r) ↔
      l.get? i = some r ∧ p r = false ∧
        ∀ j x, j < i → l.get? j = some x → p x = true := by
  intro l
  induction l with
  | nil => intro i r; simp [firstFailIdx]
  | cons a tl ih =>
    intro i r
    rw [firstFailIdx]
    by_cases h : p a = true
    · rw [if_pos h]
      cases i with
      | zero =>
        constructor
        · intro he
          cases htl : firstFailIdx p tl with
          | none => rw [htl] at he; simp at he
          | some ir => rw [htl] at he; simp [Option.map] at he
        · rintro ⟨h1, h2, -⟩
          simp only [List.get?_cons_zero, Option.some.injEq] at h1
          subst h1
          rw [h] at h2; cases h2
      | succ i2 =>
        constructor
        · intro he
          cases htl : firstFailIdx p tl with
          | none => rw [htl] at he; simp at he
          | some ir =>
            rw [htl] at he
            simp only [Option.map, Option.some.injEq, Prod.mk.injEq] at he
            obtain ⟨hi, hr⟩ := he
            have hi2 : ir.1 = i2 := by omega
            have := (ih i2 r).mp (by rw [← hi2, ← hr]; exact htl ▸ (by simp))
            · obtain ⟨g1, g2, g3⟩ := this
              refine ⟨by simpa using g1, g2, ?_⟩
              intro j x hj hx
              cases j with
              | zero =>
                simp only [List.get?_cons_zero, Option.some.injEq] at hx
                subst hx; exact h
              | succ j2 =>
                exact g3 j2 x (by omega) (by simpa using hx)
        · rintro ⟨h1, h2, h3⟩
          have g1 : tl.get? i2 = some r := by simpa using h1
          have g3 : ∀ j x, j < i2 → tl.get? j = some x → p x = true := by
            intro j x hj hx
            exact h3 (j + 1) x (by omega) (by simpa using hx)
          have := (ih i2 r).mpr ⟨g1, h2, g3⟩
          rw [this]; simp [Option.map]
    · rw [if_neg h]
      simp only [Bool.not_eq_true] at h
      constructor
      · intro he
        simp only [Option.some.injEq, Prod.mk.injEq] at he
        obtain ⟨hi, hr⟩ := he
        subst hi; subst hr
        exact ⟨by simp, h, fun j x hj => absurd hj (Nat.not_lt_zero j)⟩
      · rintro ⟨h1, h2, h3⟩
        cases i with
        | zero => simp only [List.get?_cons_zero, Option.some.injEq] at h1; rw [h1]
        | succ i2 =>
          have := h3 0 a (by omega) (by simp)
          rw [h] at this; cases this

theorem firstErr_none_iff {α : Type} (f : ℕ → α → Option RelErr) :
    ∀ (l : List α) (n : ℕ),
    firstErr f n l = none ↔ ∀ k x, l.get? k = some x → f (n + k) x = none := by
  intro l
  induction l with
  | nil => intro n; simp [firstErr]
  | cons a tl ih =>
    intro n
    rw [firstErr]
    cases h : f n a with
    | some e =>
      simp only [h]
      constructor
      · intro he; cases he
      · intro hall
        have := hall 0 a (by simp)
        rw [Nat.add_zero] at this
        rw [h] at this; cases this
    | none =>
      simp only [h]
      rw [ih (n + 1)]
      constructor
      · intro hall k x hx
        cases k with
        | zero =>
          simp only [List.get?_cons_zero, Option.some.injEq] at hx
          subst hx; rw [Nat.add_zero]; exact h
        | succ k2 =>
          have := hall k2 x (by simpa using hx)
          have harith : n + 1 + k2 = n + (k2 + 1) := by omega
          rw [harith] at this; exact this
      · intro hall k x hx
        have := hall (k + 1) x (by simpa using hx)
        have harith : n + (k + 1) = n + 1 + k := by omega
        rw [harith] at this; exact this

theorem firstErr_some_iff {α : Type} (f : ℕ → α → Option RelErr) :
    ∀ (l : List α) (n : ℕ) (e : RelErr),
    firstErr f n l = some e ↔
      ∃ k x, l.get? k = some x ∧ f (n + k) x = some e ∧
        ∀ j y, j < k → l.get? j = some y → f (n + j) y = none := by
  intro l
  induction l with
  | nil => intro n e; simp [firstErr]
  | cons a tl ih =>
    intro n e
    rw [firstErr]
    cases h : f n a with
    | some e2 =>
      simp only [h, Option.some.injEq]
      constructor
      · intro he; subst he
        exact ⟨0, a, by simp, by rw [Nat.add_zero]; exact h,
          fun j y hj => absurd hj (Nat.not_lt_zero j)⟩
      · rintro ⟨k, x, hk, hf, hmin⟩
        cases k with
        | zero =>
          simp only [List.get?_cons_zero, Option.some.injEq] at hk
          subst hk
          rw [Nat.add_zero, h, Option.some.injEq] at hf
          exact hf
        | succ k2 =>
          have := hmin 0 a (by omega) (by simp)
          rw [Nat.add_zero, h] at this; cases this
    | none =>
      simp only [h]
      rw [ih (n + 1) e]
      constructor
      · rintro ⟨k, x, hk, hf, hmin⟩
        refine ⟨k + 1, x, by simpa using hk, ?_, ?_⟩
        · have harith : n + (k + 1) = n + 1 + k := by omega
          rw [harith]; exact hf
        · intro j y hj hy
          cases j with
          | zero =>
            simp only [List.get?_cons_zero, Option.some.injEq] at hy
            subst hy; rw [Nat.add_zero]; exact h
          | succ j2 =>
            have := hmin j2 y (by omega) (by simpa using hy)
            have harith : n + 1 + j2 = n + (j2 + 1) := by omega
            rw [harith] at this; exact this
      · rintro ⟨k, x, hk, hf, hmin⟩
        cases k with
        | zero =>
          simp only [List.get?_cons_zero, Option.some.injEq] at hk
          subst hk
          rw [Nat.add_zero, h] at hf; cases hf
        | succ k2 =>
          refine ⟨k2, x, by simpa using hk, ?_, ?_⟩
          · have harith : n + 1 + k2 = n + (k2 + 1) := by omega
            rw [harith]; exact hf
          · intro j y hj hy
            have := hmin (j + 1) y (by omega) (by simpa using hy)
            have harith : n + 1 + j = n + (j + 1) := by omega
            rw [harith]; exact this

theorem successiveClose_true_iff (tv : List ℚ) :
    successiveClose tv = true ↔
      ∀ k a b, tv.get? k = some a → tv.get? (k + 1) = some b →
        isclose a b = true := by
  induction tv with
  | nil => simp [successiveClose]
  | cons a tl ih =>
    cases tl with
    | nil =>
      simp only [successiveClose]
      constructor
      · intro _ k x y hx hy
        cases k with
        | zero => simp at hy
        | succ k2 => simp at hx
      · intro _; trivial
    | cons b rest =>
      rw [successiveClose, Bool.and_eq_true, ih]
      constructor
      · rintro ⟨h1, h2⟩ k x y hx hy
        cases k with
        | zero =>
          simp only [List.get?_cons_zero, Option.some.injEq] at hx
          simp only [List.get?_cons_succ, List.get?_cons_zero,
            Option.some.injEq] at hy
          subst hx; subst hy; exact h1
        | succ k2 =>
          exact h2 k2 x y (by simpa using hx) (by simpa using hy)
      · intro hall
        refine ⟨hall 0 a b (by simp) (by simp), ?_⟩
        intro k x y hx hy
        exact hall (k + 1) x y (by simpa using hx) (by simpa using hy)

theorem successiveClose_false_iff (tv : List ℚ) :
    successiveClose tv = false ↔
      ∃ k a b, tv.get? k = some a ∧ tv.get? (k + 1) = some b ∧
        isclose a b = false := by
  rw [← Bool.not_eq_true, successiveClose_true_iff]
  push_neg
  constructor
  · rintro ⟨k, a, b, ha, hb, hc⟩
    exact ⟨k, a, b, ha, hb, Bool.not_eq_true _ ▸ hc⟩
  · rintro ⟨k, a, b, ha, hb, hc⟩
    exact ⟨k, a, b, ha, hb, by rw [hc]; exact Bool.false_ne_true⟩

theorem invoiceRowCheck_none_iff (idx : ℕ) (r : InvoiceRowN) :
    invoiceRowCheck idx r = none ↔
      ∀ iv tv ta, r.invoice_value = some iv → r.taxable_value = some tv →
        r.tax_amount = some ta → isclose iv (tv + ta) = true := by
  cases hiv : r.invoice_value with
  | none => simp [invoiceRowCheck, hiv]
  | some iv =>
    cases htv : r.taxable_value with
    | none => simp [invoiceRowCheck, hiv, htv]
    | some tv =>
      cases hta : r.tax_amount with
      | none => simp [invoiceRowCheck, hiv, htv, hta]
      | some ta =>
        by_cases hc : isclose iv (tv + ta) = true
        · simp [invoiceRowCheck, hiv, htv, hta, hc]
        · simp only [Bool.not_eq_true] at hc
          simp [invoiceRowCheck, hiv, htv, hta, hc]

theorem invoiceRowCheck_mismatch_iff (idx i : ℕ) (r : InvoiceRowN)
    (iv tv ta : ℚ) :
    invoiceRowCheck idx r = some (.invoiceMismatch i iv tv ta) ↔
      i = idx ∧ r.invoice_value = some iv ∧ r.taxable_value = some tv ∧
        r.tax_amount = some ta ∧ isclose iv (tv + ta) = false := by
  constructor
  · intro he
    cases hiv : r.invoice_value with
    | none => simp [invoiceRowCheck, hiv] at he
    | some iv2 =>
      cases htv : r.taxable_value with
      | none => simp [invoiceRowCheck, hiv, htv] at he
      | some tv2 =>
        cases hta : r.tax_amount with
        | none => simp [invoiceRowCheck, hiv, htv, hta] at he
        | some ta2 =>
          by_cases hc : isclose iv2 (tv2 + ta2) = true
          · simp [invoiceRowCheck, hiv, htv, hta, hc] at he
          · simp only [Bool.not_eq_true] at hc
            simp [invoiceRowCheck, hiv, htv, hta, hc] at he
            obtain ⟨h1, h2, h3, h4⟩ := he
            subst h1; subst h2; subst h3; subst h4
            exact ⟨rfl, rfl, rfl, rfl, hc⟩
  · rintro ⟨h1, h2, h3, h4, h5⟩
    subst h1
    simp [invoiceRowCheck, h2, h3, h4, h5]

theorem lineRowCheck_taxMismatch_iff (idx i : ℕ) (r : LineItemRowN) :
    lineRowCheck idx r = some (.taxMismatch i) ↔
      i = idx ∧ ∃ bv, baseValue r = some bv ∧ 2 ≤ (taxVars r bv).length ∧
        successiveClose (taxVars r bv) = false := by
  constructor
  · intro he
    cases hb : baseValue r with
    | none => simp [lineRowCheck, hb] at he
    | some bv =>
      simp only [lineRowCheck, hb] at he
      by_cases hx :
          (decide (2 ≤ (taxVars r bv).length) && !successiveClose (taxVars r bv))
            = true
      · rw [if_pos hx] at he
        injection he with he2
        have hlen : 2 ≤ (taxVars r bv).length := by
          have := (Bool.and_eq_true _ _).mp hx
          exact of_decide_eq_true this.1
        have hsc : successiveClose (taxVars r bv) = false := by
          have := (Bool.and_eq_true _ _).mp hx
          simpa using this.2
        cases he2
        exact ⟨rfl, bv, rfl, hlen, hsc⟩
      · rw [if_neg hx] at he
        cases hfa : r.final_amount with
        | none => rw [hfa] at he; simp at he
        | some fa =>
          cases hh : (taxVars r bv).head? with
          | none => rw [hfa, hh] at he; simp at he
          | some t0 =>
            rw [hfa, hh] at he
            by_cases hcl : isclose fa (bv + t0) = true
            · simp [hcl] at he
            · simp [hcl] at he
  · rintro ⟨h1, bv, hb, hlen, hsc⟩
    subst h1
    have hx :
        (decide (2 ≤ (taxVars r bv).length) && !successiveClose (taxVars r bv))
          = true := by simp [hlen, hsc]
    simp [lineRowCheck, hb, hx]

theorem check_missing_values_none_iff (inv : List InvoiceRow)
    (li : List LineItemRow) (ts : List SummaryRow) :
    check_missing_values inv li ts = none ↔
      (∀ r ∈ inv, invoiceRowOk r = true) ∧ (∀ r ∈ li, lineItemRowOk r = true) ∧
        (∀ r ∈ ts, summaryRowOk r = true) := by
  constructor
  · intro h
    unfold check_missing_values at h
    cases h1 : firstFailIdx invoiceRowOk inv with
    | some ir => rw [h1] at h; simp at h
    | none =>
      rw [h1] at h
      cases h2 : firstFailIdx lineItemRowOk li with
      | some ir => rw [h2] at h; simp at h
      | none =>
        rw [h2] at h
        cases h3 : firstFailIdx summaryRowOk ts with
        | some ir => rw [h3] at h; simp at h
        | none =>
          exact ⟨(firstFailIdx_none_iff _ _).mp h1,
            (firstFailIdx_none_iff _ _).mp h2, (firstFailIdx_none_iff _ _).mp h3⟩
  · rintro ⟨h1, h2, h3⟩
    unfold check_missing_values
    rw [(firstFailIdx_none_iff _ _).mpr h1, (firstFailIdx_none_iff _ _).mpr h2,
      (firstFailIdx_none_iff _ _).mpr h3]

/-! ### Claims -/

/-- C3, counterexample: the normalizer is not case-insensitive.  The cells
"NAN", "Null", "NONE" are left unchanged by `standardize_nulls`
(`df.replace` matches the five listed strings exactly), refuting the claim
that every case-insensitive spelling of nan/null/none becomes the absent
marker. -/
theorem c3_counterexample :
    standardizeVal (.vstr "NAN") = .vstr "NAN" ∧
    standardizeVal (.vstr "Null") = .vstr "Null" ∧
    standardizeVal (.vstr "NONE") = .vstr "NONE" ∧
    standardizeVal (.vstr "NAN") ≠ .vnan := by decide

/-- C3, amended: the normalizer maps exactly the cells equal to one of
'', 'nan', 'null', 'none', 'None' (exact, case-sensitive matches) to the
canonical absent marker, and alters no other cell value; it is pure and
total (every cell is either normalized to the marker or returned
unchanged). -/
theorem c3_normalizer_exact :
    (∀ s : String, standardizeVal (.vstr s) = .vnan ↔ s ∈ nullTokens) ∧
    (∀ v : Val, standardizeVal v = .vnan ∨ standardizeVal v = v) ∧
    (∀ q : ℚ, standardizeVal (.vnum q) = .vnum q) ∧
    standardizeVal .vnan = .vnan := by
  refine ⟨fun s => ?_, fun v => ?_, fun q => rfl, rfl⟩
  · by_cases h : s ∈ nullTokens
    · simp [standardizeVal, h]
    · simp [standardizeVal, h]
  · cases v with
    | vstr s =>
      by_cases h : s ∈ nullTokens
      · left; simp [standardizeVal, h]
      · right; simp [standardizeVal, h]
    | vnum q => right; rfl
    | vnan => right; rfl

/-- Witness for C3: the exact cell "nan" is normalized to the absent
marker. -/
theorem c3_normalizer_exact_witness : standardizeVal (.vstr "nan") = .vnan :=
  (c3_normalizer_exact.1 "nan").mpr (by decide)

set_option maxRecDepth 40000 in
/-- C2, counterexample: the comparator the source uses is
`np.isclose(a, b, rtol=1e-05)` which keeps numpy's default absolute
tolerance 1e-8 and measures the relative part against `|b|` only.  The pair
(1e-8, 0) is accepted by the code but rejected by the claimed zero-atol
comparator, and scaling both values by 1e8 (giving (1, 0)) flips the code
verdict from pass to fail — exhibited inside the line-item reconciliation
where the two tax estimates are exactly those pairs. -/
theorem c2_counterexample :
    isclose (1 / 100000000) 0 = true ∧
    specClose (1 / 100000000) 0 = false ∧
    isclose 1 0 = false ∧
    lineRowCheck 0 liScaleSmall = none ∧
    lineRowCheck 0 liScaleBig = some (.taxMismatch 0) := by
  refine ⟨by with_unfolding_all decide, by with_unfolding_all decide,
    by with_unfolding_all decide, by with_unfolding_all decide,
    by with_unfolding_all decide⟩

/-- C2, amended: every numeric-agreement comparison in the reconciliation
stage holds iff `|a − b| ≤ 1e-8 + 1e-5·|b|` (numpy's default atol 1e-8 and
rtol measured against the second operand).  The purely relative part of the
comparison is scale-invariant for every nonzero factor, and relative
closeness within 1e-5·|b| always suffices for the code comparator, but the
absolute-tolerance term breaks scale invariance of the full comparator. -/
theorem c2_comparator (a b c : ℚ) (hc : c ≠ 0) :
    (isclose a b = true ↔ |a - b| ≤ atol + rtol * |b|) ∧
    ((|c * a - c * b| ≤ rtol * |c * b|) ↔ |a - b| ≤ rtol * |b|) ∧
    (|a - b| ≤ rtol * |b| → isclose a b = true) := by
  refine ⟨by simp [isclose], ?_, ?_⟩
  · have hc2 : (0 : ℚ) < |c| := abs_pos.mpr hc
    have h1 : c * a - c * b = c * (a - b) := by ring
    rw [h1, abs_mul, abs_mul,
      show rtol * (|c| * |b|) = |c| * (rtol * |b|) by ring]
    exact mul_le_mul_left hc2
  · intro h
    simp only [isclose, decide_eq_true_eq]
    have ha : (0 : ℚ) < atol := by norm_num [atol]
    linarith

/-- Witness for C2: the comparator facts at a = 3, b = 4, c = 2. -/
theorem c2_comparator_witness :
    (isclose 3 4 = true ↔ |(3 : ℚ) - 4| ≤ atol + rtol * |(4 : ℚ)|) ∧
    ((|(2 : ℚ) * 3 - 2 * 4| ≤ rtol * |(2 : ℚ) * 4|) ↔
      |(3 : ℚ) - 4| ≤ rtol * |(4 : ℚ)|) ∧
    (|(3 : ℚ) - 4| ≤ rtol * |(4 : ℚ)| → isclose 3 4 = true) :=
  c2_comparator 3 4 2 (by decide)

set_option maxRecDepth 40000 in
/-- C1, counterexample: summary row 1 has total_tax_amount absent and an
incomplete cgst/sgst/igst triple, so by the claim its invoice-total check
should be skipped without error (and this input would validate).  Instead
the loop-carried Python local `total_tax` still holds row 0's value 100,
the check runs against that stale value, and validation fails at row 1. -/
theorem c1_counterexample :
    (standardizeSummaryRow sRowStale).total_tax_amount = .vnan ∧
    (standardizeSummaryRow sRowStale).total_cgst_amount = .vnan ∧
    (standardizeSummaryRow sRowStale).total_sgst_amount = .vnan ∧
    validate_invoice_data [hdrOk] [liOk] [sRowResolved, sRowStale] =
      .ok (false, "Step 3: Relations",
        "Total invoice value mismatch at row 1: 5900 != 5000 + 100") := by
  refine ⟨rfl, rfl, rfl, ?_⟩
  have h1 : check_missing_values ([hdrOk].map standardizeInvoiceRow)
      ([liOk].map standardizeLineItemRow)
      ([sRowResolved, sRowStale].map standardizeSummaryRow) = none := by
    decide
  have h2 : check_data_types ([hdrOk].map standardizeInvoiceRow)
      ([liOk].map standardizeLineItemRow)
      ([sRowResolved, sRowStale].map standardizeSummaryRow) = true := by
    with_unfolding_all decide
  have hc1 : isclose 118 (100 + 18) = true := by with_unfolding_all decide
  have hc2 : isclose 1100 (1000 + 100) = true := by with_unfolding_all decide
  have hc3 : isclose 5900 (5000 + 100) = false := by with_unfolding_all decide
  have h3 : check_relations
      (([hdrOk].map standardizeInvoiceRow).map coerceInvoiceRow)
      (([liOk].map standardizeLineItemRow).map coerceLineItemRow)
      (([sRowResolved, sRowStale].map standardizeSummaryRow).map
        coerceSummaryRow) = some (.summaryMismatch 1 5900 5000 100) := by
    simp [check_relations, checkInvoiceRelations, checkLineRelations, firstErr,
      invoiceRowCheck, lineRowCheck, baseValue, taxVars, successiveClose,
      checkSummaryRelations, summaryStep, coerceInvoiceRow, coerceLineItemRow,
      coerceSummaryRow, toNum, standardizeInvoiceRow, standardizeLineItemRow,
      standardizeSummaryRow, standardizeVal, hdrOk, liOk, sRowResolved,
      sRowStale, hc1, hc2, hc3]
  simp only [validate_invoice_data, h1, h2, h3]
  have hmsg : relErrMsg (.summaryMismatch 1 5900 5000 100) =
      "Total invoice value mismatch at row 1: 5900 != 5000 + 100" := by
    with_unfolding_all decide
  rw [hmsg]
  simp

/-- C1, amended: at each summary row, `total_tax` resolves to
total_tax_amount if present, else to the cgst+sgst+igst sum if the triple
is complete, else it silently keeps the value it had from earlier rows.
When total_taxable_value, total_invoice_value and the (possibly stale)
resolved total_tax all exist, the check fails iff total_invoice_value is
not close to total_taxable_value + total_tax, reporting both sides; when
either total is absent the row's check is skipped; and when both totals
are present but total_tax was never assigned on any row so far, the engine
raises an uncaught NameError instead of skipping. -/
theorem c1_summary_row (idx : ℕ) (st : Option ℚ) (r : SummaryRowN)
    (rs : List SummaryRowN) :
    (∀ ttv tiv tt, r.total_taxable_value = some ttv →
      r.total_invoice_value = some tiv → summaryStep st r = some tt →
      checkSummaryRelations idx st (r :: rs) =
        if isclose tiv (ttv + tt) = true then
          checkSummaryRelations (idx + 1) (some tt) rs
        else some (.summaryMismatch idx tiv ttv tt)) ∧
    ((r.total_taxable_value = none ∨ r.total_invoice_value = none) →
      checkSummaryRelations idx st (r :: rs) =
        checkSummaryRelations (idx + 1) (summaryStep st r) rs) ∧
    (∀ ttv tiv, r.total_taxable_value = some ttv →
      r.total_invoice_value = some tiv → summaryStep st r = none →
      checkSummaryRelations idx st (r :: rs) = some (.summaryUnbound idx)) ∧
    (r.total_tax_amount = none →
      (r.total_cgst_amount = none ∨ r.total_sgst_amount = none ∨
        r.total_igst_amount = none) →
      summaryStep st r = st) := by
  refine ⟨?_, ?_, ?_, ?_⟩
  · intro ttv tiv tt h1 h2 h3
    simp only [checkSummaryRelations, h1, h2, h3]
  · intro hor
    rcases hor with h | h
    · simp only [checkSummaryRelations, h]
    · cases h1 : r.total_taxable_value with
      | none => simp only [checkSummaryRelations, h1, h]
      | some ttv => simp only [checkSummaryRelations, h1, h]
  · intro ttv tiv h1 h2 h3
    simp only [checkSummaryRelations, h1, h2, h3]
  · intro h1 h2
    rcases h2 with h | h | h <;>
      cases hc : r.total_cgst_amount <;>
        cases hs : r.total_sgst_amount <;>
          cases hi2 : r.total_igst_amount <;>
            simp_all [summaryStep]

set_option maxRecDepth 40000 in
/-- Witness for C1: the stale state (total_tax = 100 from an earlier row)
makes the check at the next row run and fail instead of being skipped. -/
theorem c1_summary_row_witness :
    checkSummaryRelations 1 (some 100)
        [⟨some 5000, some 5900, none, none, none, some 900, none⟩] =
      some (.summaryMismatch 1 5900 5000 100) := by
  have h := (c1_summary_row 1 (some 100)
      ⟨some 5000, some 5900, none, none, none, some 900, none⟩ []).1
      5000 5900 100 rfl rfl rfl
  have hc : isclose 5900 (5000 + 100) = false := by with_unfolding_all decide
  rw [h, hc]
  simp

/-- C4: a header row passes Step 1 iff invoice_number, invoice_date,
place_of_supply, place_of_origin, receiver_name, gstin_supplier and
tax_amount are all present and taxable_value or invoice_value is present;
on failure Step 1 reports the first failing row's 0-based index together
with exactly the column names absent at that row; in particular a header
missing only gstin_supplier is reported naming gstin_supplier. -/
theorem c4_header_presence (inv : List InvoiceRow) (li : List LineItemRow)
    (ts : List SummaryRow) (i : ℕ) (cols : List String) :
    (∀ r : InvoiceRow, invoiceRowOk r = true ↔
      (isna r.invoice_number = false ∧ isna r.invoice_date = false ∧
       isna r.place_of_supply = false ∧ isna r.place_of_origin = false ∧
       isna r.receiver_name = false ∧ isna r.gstin_supplier = false ∧
       (isna r.taxable_value = false ∨ isna r.invoice_value = false) ∧
       isna r.tax_amount = false)) ∧
    (check_missing_values inv li ts = some (.invoiceMissing i cols) ↔
      ∃ r, inv.get? i = some r ∧ invoiceRowOk r = false ∧
        cols = invoiceMissingCols r ∧
        ∀ j x, j < i → inv.get? j = some x → invoiceRowOk x = true) ∧
    (∀ r : InvoiceRow, isna r.gstin_supplier = true →
      isna r.invoice_number = false → isna r.invoice_date = false →
      isna r.place_of_supply = false → isna r.place_of_origin = false →
      isna r.receiver_name = false → isna r.taxable_value = false →
      isna r.invoice_value = false → isna r.tax_amount = false →
      invoiceMissingCols r = ["gstin_supplier"] ∧ invoiceRowOk r = false) := by
  refine ⟨?_, ?_, ?_⟩
  · intro r
    rw [invoiceRowOk]
    simp only [Bool.and_eq_true, Bool.or_eq_true, Bool.not_eq_true']
    tauto
  · cases hff : firstFailIdx invoiceRowOk inv with
    | some ir =>
      obtain ⟨j, r⟩ := ir
      have hchar := (firstFailIdx_some_iff invoiceRowOk inv j r).mp hff
      simp only [check_missing_values, hff, Option.some.injEq,
        Step1Err.invoiceMissing.injEq]
      constructor
      · rintro ⟨hj, hcols⟩
        subst hj
        exact ⟨r, hchar.1, hchar.2.1, hcols.symm, hchar.2.2⟩
      · rintro ⟨r2, hr2, hbad, hcols, hmin⟩
        have h2 := (firstFailIdx_some_iff invoiceRowOk inv i r2).mpr
          ⟨hr2, hbad, hmin⟩
        rw [hff] at h2
        injection h2 with h2
        obtain ⟨hji, hrr⟩ := Prod.mk.injEq .. ▸ h2
        subst hji
        subst hrr
        exact ⟨rfl, hcols.symm⟩
    | none =>
      have hall := (firstFailIdx_none_iff invoiceRowOk inv).mp hff
      constructor
      · intro he
        unfold check_missing_values at he
        rw [hff] at he
        cases h2 : firstFailIdx lineItemRowOk li with
        | some ir2 => rw [h2] at he; simp at he
        | none =>
          rw [h2] at he
          cases h3 : firstFailIdx summaryRowOk ts with
          | some ir3 => rw [h3] at he; simp at he
          | none => rw [h3] at he; simp at he
      · rintro ⟨r2, hr2, hbad, -, -⟩
        have hmem : r2 ∈ inv := List.get?_mem hr2
        rw [hall r2 hmem] at hbad
        cases hbad
  · intro r h0 h1 h2 h3 h4 h5 h6 h7 h8
    constructor
    · simp [invoiceMissingCols, invoiceFields, h0, h1, h2, h3, h4, h5, h6,
        h7, h8]
    · simp [invoiceRowOk, h0]

/-- Witness for C4: the concrete header row whose only NaN cell is
gstin_supplier is flagged with exactly that column name. -/
theorem c4_header_presence_witness :
    invoiceMissingCols hdrMissingGstin = ["gstin_supplier"] ∧
    invoiceRowOk hdrMissingGstin = false :=
  (c4_header_presence [] [] [] 0 []).2.2 hdrMissingGstin rfl rfl rfl rfl rfl
    rfl rfl rfl rfl

/-- C5: for every line-item row with a determined base_value the stage
builds the estimate list in the fixed order (a) sgst+cgst+igst amounts
(only if all three present), (b) base × rate sum / 100 (only if all three
rates present), (c) tax_amount, (d) base × tax_rate / 100; the line-item
relation loop aborts with the tax-disagreement error at row i iff row i has
at least 2 estimates with some successive pair not close and every earlier
row passes its checks. -/
theorem c5_tax_estimates (li : List LineItemRowN) (i : ℕ) :
    (checkLineRelations 0 li = some (.taxMismatch i) ↔
      ∃ r bv, li.get? i = some r ∧ baseValue r = some bv ∧
        2 ≤ (taxVars r bv).length ∧ successiveClose (taxVars r bv) = false ∧
        ∀ j x, j < i → li.get? j = some x → lineRowCheck j x = none) ∧
    (∀ tv : List ℚ, successiveClose tv = false ↔
      ∃ k a b, tv.get? k = some a ∧ tv.get? (k + 1) = some b ∧
        isclose a b = false) ∧
    (∀ (r : LineItemRowN) (bv sa ca ia sr cr ir t tr2 : ℚ),
      r.sgst_amount = some sa → r.cgst_amount = some ca →
      r.igst_amount = some ia → r.sgst_rate = some sr →
      r.cgst_rate = some cr → r.igst_rate = some ir →
      r.tax_amount = some t → r.tax_rate = some tr2 →
      taxVars r bv = [sa + ca + ia, bv * (sr + cr + ir) / 100, t,
        bv * tr2 / 100]) := by
  refine ⟨?_, fun tv => successiveClose_false_iff tv, ?_⟩
  · rw [checkLineRelations, firstErr_some_iff]
    constructor
    · rintro ⟨k, x, hk, hf, hmin⟩
      rw [Nat.zero_add] at hf
      obtain ⟨hik, bv, hbv, hlen, hsc⟩ :=
        (lineRowCheck_taxMismatch_iff k i x).mp hf
      subst hik
      refine ⟨x, bv, hk, hbv, hlen, hsc, ?_⟩
      intro j y hj hy
      have := hmin j y hj hy
      rw [Nat.zero_add] at this
      exact this
    · rintro ⟨r, bv, hr, hbv, hlen, hsc, hmin⟩
      refine ⟨i, r, hr, ?_, ?_⟩
      · rw [Nat.zero_add]
        exact (lineRowCheck_taxMismatch_iff i i r).mpr ⟨rfl, bv, hbv, hlen, hsc⟩
      · intro j y hj hy
        rw [Nat.zero_add]
        exact hmin j y hj hy
  · intro r bv sa ca ia sr cr ir t tr2 g1 g2 g3 g4 g5 g6 g7 g8
    simp [taxVars, g1, g2, g3, g4, g5, g6, g7, g8]

/-- Witness for C5: a row whose estimates are [18, 10] (tax_amount against
base × tax_rate / 100) aborts the loop with the tax-disagreement error. -/
theorem c5_tax_estimates_witness :
    checkLineRelations 0 [liTaxDisagree] = some (.taxMismatch 0) := by
  refine ((c5_tax_estimates [liTaxDisagree] 0).1).mpr
    ⟨liTaxDisagree, 100, rfl, rfl, by with_unfolding_all decide,
      by with_unfolding_all decide,
      fun j x hj _ => absurd hj (Nat.not_lt_zero j)⟩

/-- C6: base_value is taxable_value when present, else
rate_per_item_after_discount × quantity when both are present; when neither
determination is possible every reconciliation check of the row is skipped
without error, and a row with a base value but an empty estimate list
raises no reconciliation error. -/
theorem c6_base_value (idx : ℕ) (r : LineItemRowN) :
    (∀ tv, r.taxable_value = some tv → baseValue r = some tv) ∧
    (∀ rp q, r.taxable_value = none →
      r.rate_per_item_after_discount = some rp → r.quantity = some q →
      baseValue r = some (rp * q)) ∧
    (r.taxable_value = none →
      (r.rate_per_item_after_discount = none ∨ r.quantity = none) →
      baseValue r = none ∧ lineRowCheck idx r = none) ∧
    (∀ bv, baseValue r = some bv → taxVars r bv = [] →
      lineRowCheck idx r = none) := by
  refine ⟨?_, ?_, ?_, ?_⟩
  · intro tv h
    simp [baseValue, h]
  · intro rp q h1 h2 h3
    simp [baseValue, h1, h2, h3]
  · intro h1 hor
    have hb : baseValue r = none := by
      rcases hor with h | h
      · simp [baseValue, h1, h]
      · cases h2 : r.rate_per_item_after_discount with
        | none => simp [baseValue, h1, h2]
        | some rp => simp [baseValue, h1, h2, h]
    exact ⟨hb, by simp [lineRowCheck, hb]⟩
  · intro bv hb ht
    cases hfa : r.final_amount with
    | none => simp [lineRowCheck, hb, ht, hfa]
    | some fa => simp [lineRowCheck, hb, ht, hfa]

/-- Witness for C6: a row with taxable_value 100, sgst and cgst amounts
present but igst absent, has base 100, forms zero estimates, and passes. -/
theorem c6_base_value_witness :
    baseValue liNoEstimates = some 100 ∧
    lineRowCheck 0 liNoEstimates = none := by
  refine ⟨(c6_base_value 0 liNoEstimates).1 100 rfl, ?_⟩
  exact (c6_base_value 0 liNoEstimates).2.2.2 100
    ((c6_base_value 0 liNoEstimates).1 100 rfl) rfl

/-- C7: the header relation loop aborts with the invoice-mismatch error
carrying (i, invoice_value, taxable_value, tax_amount) iff row i has all
three fields present, invoice_value not close to taxable_value +
tax_amount, and every earlier row passes; a row passes iff whenever all
three fields are present the sum is close.  Concretely 118 = 100 + 18
passes, 120 vs 100 + 18 fails, and its message contains 120 and 100 + 18. -/
theorem c7_header_relation (inv : List InvoiceRowN) (i : ℕ) (iv tv ta : ℚ) :
    (checkInvoiceRelations 0 inv = some (.invoiceMismatch i iv tv ta) ↔
      ∃ r : InvoiceRowN, inv.get? i = some r ∧ r.invoice_value = some iv ∧
        r.taxable_value = some tv ∧ r.tax_amount = some ta ∧
        isclose iv (tv + ta) = false ∧
        ∀ j x, j < i → inv.get? j = some x → invoiceRowCheck j x = none) ∧
    (∀ idx r, invoiceRowCheck idx r = none ↔
      ∀ iv2 tv2 ta2, r.invoice_value = some iv2 → r.taxable_value = some tv2 →
        r.tax_amount = some ta2 → isclose iv2 (tv2 + ta2) = true) ∧
    checkInvoiceRelations 0 [⟨some 100, some 118, some 18⟩] = none ∧
    checkInvoiceRelations 0 [⟨some 100, some 120, some 18⟩] =
      some (.invoiceMismatch 0 120 100 18) ∧
    relErrMsg (.invoiceMismatch 0 120 100 18) =
      "Invoice value mismatch at row 0: 120 != 100 + 18" := by
  refine ⟨?_, fun idx r => invoiceRowCheck_none_iff idx r,
    by with_unfolding_all decide, by with_unfolding_all decide,
    by with_unfolding_all decide⟩
  rw [checkInvoiceRelations, firstErr_some_iff]
  constructor
  · rintro ⟨k, x, hk, hf, hmin⟩
    rw [Nat.zero_add] at hf
    obtain ⟨hik, g1, g2, g3, g4⟩ := (invoiceRowCheck_mismatch_iff k i x iv tv ta).mp hf
    subst hik
    refine ⟨x, hk, g1, g2, g3, g4, ?_⟩
    intro j y hj hy
    have := hmin j y hj hy
    rw [Nat.zero_add] at this
    exact this
  · rintro ⟨r, hr, g1, g2, g3, g4, hmin⟩
    refine ⟨i, r, hr, ?_, ?_⟩
    · rw [Nat.zero_add]
      exact (invoiceRowCheck_mismatch_iff i i r iv tv ta).mpr
        ⟨rfl, g1, g2, g3, g4⟩
    · intro j y hj hy
      rw [Nat.zero_add]
      exact hmin j y hj hy

/-- Witness for C7: Example 2's failing header row, derived through the
characterization. -/
theorem c7_header_relation_witness :
    checkInvoiceRelations 0 [⟨some 100, some 120, some 18⟩] =
      some (.invoiceMismatch 0 120 100 18) := by
  refine ((c7_header_relation [⟨some 100, some 120, some 18⟩] 0 120 100
    18).1).mpr ⟨⟨some 100, some 120, some 18⟩, rfl, rfl, rfl, rfl,
      by with_unfolding_all decide,
      fun j x hj _ => absurd hj (Nat.not_lt_zero j)⟩

/-- C8: the verdict is a 3-tuple; on full success it is exactly
(true, "All Steps", "Validation successful"); the three steps gate each
other in order, and whenever any row of any collection violates its
presence predicate the verdict is (false, "Step 1: Missing Values", m)
where m reports the first violating collection/row in evaluation order
(header, then items, then summary, then row order). -/
theorem c8_verdict (inv : List InvoiceRow) (li : List LineItemRow)
    (ts : List SummaryRow)
    (invS : List InvoiceRow) (liS : List LineItemRow) (tsS : List SummaryRow)
    (hinv : invS = inv.map standardizeInvoiceRow)
    (hli : liS = li.map standardizeLineItemRow)
    (hts : tsS = ts.map standardizeSummaryRow) :
    (∀ e, check_missing_values invS liS tsS = some e →
      validate_invoice_data inv li ts =
        .ok (false, "Step 1: Missing Values", step1Msg e)) ∧
    ((∃ r ∈ invS, invoiceRowOk r = false) ∨
      (∃ r ∈ liS, lineItemRowOk r = false) ∨
      (∃ r ∈ tsS, summaryRowOk r = false) →
      ∃ e, check_missing_values invS liS tsS = some e ∧
        validate_invoice_data inv li ts =
          .ok (false, "Step 1: Missing Values", step1Msg e)) ∧
    (check_missing_values invS liS tsS = none →
      check_data_types invS liS tsS = false →
      validate_invoice_data inv li ts =
        .ok (false, "Step 2: Data Types", "Data type conversion failed")) ∧
    (∀ e, check_missing_values invS liS tsS = none →
      check_data_types invS liS tsS = true →
      check_relations (invS.map coerceInvoiceRow) (liS.map coerceLineItemRow)
          (tsS.map coerceSummaryRow) = some e → (∀ k, e ≠ .summaryUnbound k) →
      validate_invoice_data inv li ts =
        .ok (false, "Step 3: Relations", relErrMsg e)) ∧
    (check_missing_values invS liS tsS = none →
      check_data_types invS liS tsS = true →
      check_relations (invS.map coerceInvoiceRow) (liS.map coerceLineItemRow)
          (tsS.map coerceSummaryRow) = none →
      validate_invoice_data inv li ts =
        .ok (true, "All Steps", "Validation successful")) ∧
    (∀ p s d, validate_invoice_data inv li ts = .ok (p, s, d) → p = true →
      s = "All Steps" ∧ d = "Validation successful") ∧
    (∀ i cols, check_missing_values invS liS tsS = some (.invoiceMissing i cols) →
      ∃ r, firstFailIdx invoiceRowOk invS = some (i, r) ∧
        cols = invoiceMissingCols r) ∧
    (∀ i, check_missing_values invS liS tsS = some (.lineItemsMissing i) →
      firstFailIdx invoiceRowOk invS = none ∧
      ∃ r, firstFailIdx lineItemRowOk liS = some (i, r)) ∧
    (∀ i, check_missing_values invS liS tsS = some (.summaryMissing i) →
      firstFailIdx invoiceRowOk invS = none ∧
      firstFailIdx lineItemRowOk liS = none ∧
      ∃ r, firstFailIdx summaryRowOk tsS = some (i, r)) := by
  refine ⟨?_, ?_, ?_, ?_, ?_, ?_, ?_, ?_, ?_⟩
  · intro e he
    simp only [validate_invoice_data, ← hinv, ← hli, ← hts, he]
  · intro hviol
    cases hcm : check_missing_values invS liS tsS with
    | some e =>
      exact ⟨e, rfl, by simp only [validate_invoice_data, ← hinv, ← hli,
        ← hts, hcm]⟩
    | none =>
      exfalso
      obtain ⟨a1, a2, a3⟩ := (check_missing_values_none_iff _ _ _).mp hcm
      rcases hviol with ⟨r, hr, hbad⟩ | ⟨r, hr, hbad⟩ | ⟨r, hr, hbad⟩
      · rw [a1 r hr] at hbad; cases hbad
      · rw [a2 r hr] at hbad; cases hbad
      · rw [a3 r hr] at hbad; cases hbad
  · intro hcm hdt
    simp only [validate_invoice_data, ← hinv, ← hli, ← hts, hcm, hdt,
      Bool.false_eq_true, if_false]
  · intro e hcm hdt hcr hne
    cases e with
    | invoiceMismatch idx iv tv ta =>
      simp only [validate_invoice_data, ← hinv, ← hli, ← hts, hcm, hdt,
        hcr, if_true]
    | taxMismatch idx =>
      simp only [validate_invoice_data, ← hinv, ← hli, ← hts, hcm, hdt,
        hcr, if_true]
    | finalMismatch idx fa bv t0 =>
      simp only [validate_invoice_data, ← hinv, ← hli, ← hts, hcm, hdt,
        hcr, if_true]
    | summaryMismatch idx tiv ttv tt =>
      simp only [validate_invoice_data, ← hinv, ← hli, ← hts, hcm, hdt,
        hcr, if_true]
    | summaryUnbound idx => exact absurd rfl (hne idx)
  · intro hcm hdt hcr
    simp only [validate_invoice_data, ← hinv, ← hli, ← hts, hcm, hdt, hcr,
      if_true]
  · intro p s d he hp
    subst hp
    cases hcm : check_missing_values invS liS tsS with
    | some e =>
      simp only [validate_invoice_data, ← hinv, ← hli, ← hts, hcm] at he
      simp at he
    | none =>
      cases hdt : check_data_types invS liS tsS with
      | false =>
        simp only [validate_invoice_data, ← hinv, ← hli, ← hts, hcm, hdt,
          Bool.false_eq_true, if_false] at he
        simp at he
      | true =>
        cases hcr : check_relations (invS.map coerceInvoiceRow)
            (liS.map coerceLineItemRow) (tsS.map coerceSummaryRow) with
        | none =>
          simp only [validate_invoice_data, ← hinv, ← hli, ← hts, hcm, hdt,
            hcr, if_true] at he
          simp only [Except.ok.injEq, Prod.mk.injEq] at he
          exact ⟨he.2.1.symm, he.2.2.symm⟩
        | some e =>
          cases e with
          | invoiceMismatch idx iv tv ta =>
            simp only [validate_invoice_data, ← hinv, ← hli, ← hts, hcm,
              hdt, hcr, if_true] at he
            simp at he
          | taxMismatch idx =>
            simp only [validate_invoice_data, ← hinv, ← hli, ← hts, hcm,
              hdt, hcr, if_true] at he
            simp at he
          | finalMismatch idx fa bv t0 =>
            simp only [validate_invoice_data, ← hinv, ← hli, ← hts, hcm,
              hdt, hcr, if_true] at he
            simp at he
          | summaryMismatch idx tiv ttv tt =>
            simp only [validate_invoice_data, ← hinv, ← hli, ← hts, hcm,
              hdt, hcr, if_true] at he
            simp at he
          | summaryUnbound idx =>
            simp only [validate_invoice_data, ← hinv, ← hli, ← hts, hcm,
              hdt, hcr, if_true] at he
            simp at he
  · intro i cols he
    unfold check_missing_values at he
    cases h1 : firstFailIdx invoiceRowOk invS with
    | some ir =>
      obtain ⟨j, r⟩ := ir
      rw [h1] at he
      simp only [Option.some.injEq, Step1Err.invoiceMissing.injEq] at he
      obtain ⟨hj, hcols⟩ := he
      subst hj
      exact ⟨r, rfl, hcols.symm⟩
    | none =>
      rw [h1] at he
      cases h2 : firstFailIdx lineItemRowOk liS with
      | some ir2 => rw [h2] at he; simp at he
      | none =>
        rw [h2] at he
        cases h3 : firstFailIdx summaryRowOk tsS with
        | some ir3 => rw [h3] at he; simp at he
        | none => rw [h3] at he; simp at he
  · intro i he
    unfold check_missing_values at he
    cases h1 : firstFailIdx invoiceRowOk invS with
    | some ir => rw [h1] at he; simp at he
    | none =>
      rw [h1] at he
      cases h2 : firstFailIdx lineItemRowOk liS with
      | some ir2 =>
        obtain ⟨j, r⟩ := ir2
        rw [h2] at he
        simp only [Option.some.injEq, Step1Err.lineItemsMissing.injEq] at he
        subst he
        exact ⟨rfl, r, rfl⟩
      | none =>
        rw [h2] at he
        cases h3 : firstFailIdx summaryRowOk tsS with
        | some ir3 => rw [h3] at he; simp at he
        | none => rw [h3] at he; simp at he
  · intro i he
    unfold check_missing_values at he
    cases h1 : firstFailIdx invoiceRowOk invS with
    | some ir => rw [h1] at he; simp at he
    | none =>
      rw [h1] at he
      cases h2 : firstFailIdx lineItemRowOk liS with
      | some ir2 => rw [h2] at he; simp at he
      | none =>
        rw [h2] at he
        cases h3 : firstFailIdx summaryRowOk tsS with
        | some ir3 =>
          obtain ⟨j, r⟩ := ir3
          rw [h3] at he
          simp only [Option.some.injEq, Step1Err.summaryMissing.injEq] at he
          subst he
          exact ⟨rfl, rfl, r, rfl⟩
        | none => rw [h3] at he; simp at he

/-- Witness for C8: the header missing only gstin_supplier yields the
Step 1 verdict naming gstin_supplier at row 0. -/
theorem c8_verdict_witness :
    validate_invoice_data [hdrMissingGstin] [] [] =
      .ok (false, "Step 1: Missing Values",
        "Missing required values in invoice_df: gstin_supplier at row 0") := by
  have h := (c8_verdict [hdrMissingGstin] [] []
      ([hdrMissingGstin].map standardizeInvoiceRow)
      ([].map standardizeLineItemRow) ([].map standardizeSummaryRow)
      rfl rfl rfl).1 (.invoiceMissing 0 ["gstin_supplier"]) (by decide)
  rw [h]
  with_unfolding_all decide

/-- C9: the engine is deterministic — two runs on the same inputs give the
same verdict — and running it on its own normalized copies of the inputs
changes nothing, reflecting that the Python code rebinds its parameters to
fresh frames returned by `df.replace` and never mutates the caller's
collections. -/
theorem c9_deterministic (inv : List InvoiceRow) (li : List LineItemRow)
    (ts : List SummaryRow) :
    validate_invoice_data inv li ts = validate_invoice_data inv li ts ∧
    validate_invoice_data (inv.map standardizeInvoiceRow)
        (li.map standardizeLineItemRow) (ts.map standardizeSummaryRow) =
      validate_invoice_data inv li ts := by
  refine ⟨rfl, ?_⟩
  have hv : ∀ v, standardizeVal (standardizeVal v) = standardizeVal v := by
    intro v
    cases v with
    | vstr s =>
      by_cases h : s ∈ nullTokens
      · simp [standardizeVal, h]
      · simp [standardizeVal, h]
    | vnum q => rfl
    | vnan => rfl
  have hr1 : ∀ r, standardizeInvoiceRow (standardizeInvoiceRow r) =
      standardizeInvoiceRow r := by
    intro r
    simp [standardizeInvoiceRow, hv]
  have hr2 : ∀ r, standardizeLineItemRow (standardizeLineItemRow r) =
      standardizeLineItemRow r := by
    intro r
    simp [standardizeLineItemRow, hv]
  have hr3 : ∀ r, standardizeSummaryRow (standardizeSummaryRow r) =
      standardizeSummaryRow r := by
    intro r
    simp [standardizeSummaryRow, hv]
  have m1 : (inv.map standardizeInvoiceRow).map standardizeInvoiceRow =
      inv.map standardizeInvoiceRow := by
    induction inv with
    | nil => rfl
    | cons a tl ih =>
      simp only [List.map_cons, hr1, List.cons.injEq]
      exact ⟨trivial, ih⟩
  have m2 : (li.map standardizeLineItemRow).map standardizeLineItemRow =
      li.map standardizeLineItemRow := by
    induction li with
    | nil => rfl
    | cons a tl ih =>
      simp only [List.map_cons, hr2, List.cons.injEq]
      exact ⟨trivial, ih⟩
  have m3 : (ts.map standardizeSummaryRow).map standardizeSummaryRow =
      ts.map standardizeSummaryRow := by
    induction ts with
    | nil => rfl
    | cons a tl ih =>
      simp only [List.map_cons, hr3, List.cons.injEq]
      exact ⟨trivial, ih⟩
  simp only [validate_invoice_data, m1, m2, m3]

/-- C10: a line-item row with a determined base value, final_amount
present, but an empty estimate list is silently skipped by the final-amount
check: the row passes reconciliation regardless of final_amount's value. -/
theorem c10_final_amount_skip (idx : ℕ) (r : LineItemRowN) (bv fa : ℚ)
    (hb : baseValue r = some bv) (hf : r.final_amount = some fa)
    (ht : taxVars r bv = []) :
    lineRowCheck idx r = none := by
  simp [lineRowCheck, hb, ht, hf]

/-- Witness for C10: base 100, final_amount 424242, zero estimates — the
row still passes. -/
theorem c10_final_amount_skip_witness :
    lineRowCheck 0 liFinalNoEst = none :=
  c10_final_amount_skip 0 liFinalNoEst 100 424242 rfl rfl rfl
